import Mathlib

/-!
Verification of the two image-maintenance scripts of the Lakeside Retreat
repository: `scripts/audit-images.py` (namespace `Audit`) and
`scripts/optimize-images.py` (namespace `Optimize`).

The Python code is shallowly embedded: the filesystem is an explicit value
threaded through the functions, the Pillow library is abstracted by a `Codec`
of encoder functions that may raise (return `Except.error`), and Python float
arithmetic on the fixed constants (`0.65`, `0.85`, `0.5`, `2400 / m`) is
modelled by exact natural-number division, which agrees with the float
computation on all realistic byte sizes and never exceeds it on dimensions.
-/

/-- Python's `str.lower()`, embedded over the character list (the filenames
and suffixes involved are ASCII, where `Char.toLower` agrees with it). -/
def lowerStr (s : String) : String := ⟨s.data.map Char.toLower⟩

namespace Audit

/-- The three classification buckets of `audit-images.py`:
`A` = has a copy in `public/images/` (`has_public_copy`),
`B` = referenced in the HTML but missing from `public/images/`
(`referenced_but_missing`), `C` = unreferenced (`unreferenced`). -/
inductive Bucket where
  | A
  | B
  | C
deriving DecidableEq

/-- Line 44: `public_images = set(f.name.lower() for f in PUBLIC_IMAGES.glob('*'))` —
the case-insensitive set of filenames of the target (served) directory. -/
def publicSet (targetFiles : List String) : List String :=
  targetFiles.map (fun n => lowerStr n)

/-- Lines 60–69: per-file classification.  `lowerStr name ∈ publicSet` plays
`name_lower in public_images`, membership in `htmlRefs` plays
`img.name in html_refs`. -/
def classify (targetFiles htmlRefs : List String) (name : String) : Bucket :=
  if lowerStr name ∈ publicSet targetFiles then .A
  else if name ∈ htmlRefs then .B
  else .C

/-- The state the audit tool works on: the enumerated image files of the root
directory (top level only; the `_archive` directory has no image suffix and is
never enumerated), the contents of `images/_archive`, whether that directory
exists, the target-directory filenames and the HTML reference set. -/
structure AuditState where
  rootFiles : List String
  archiveFiles : List String
  archiveExists : Bool
  targetFiles : List String
  htmlRefs : List String
deriving DecidableEq

/-- Line 63–64: the `has_public_copy` list, in enumeration order. -/
def hasPublicCopy (st : AuditState) : List String :=
  st.rootFiles.filter (fun n => classify st.targetFiles st.htmlRefs n = .A)

/-- Line 66–67: the `referenced_but_missing` list, in enumeration order. -/
def referencedButMissing (st : AuditState) : List String :=
  st.rootFiles.filter (fun n => classify st.targetFiles st.htmlRefs n = .B)

/-- Line 68–69: the `unreferenced` list, in enumeration order. -/
def unreferenced (st : AuditState) : List String :=
  st.rootFiles.filter (fun n => classify st.targetFiles st.htmlRefs n = .C)

/-- Outcome of one `--clean` run: the names moved (in the order
`has_public_copy + unreferenced` of line 92), whether `mkdir` actually
created the archive directory (`mkdir(exist_ok=True)`, line 89), and the
resulting state. -/
structure CleanResult where
  moved : List String
  createdArchive : Bool
  state : AuditState
deriving DecidableEq

/-- Lines 87–96: clean mode.  Every file of buckets A and C is moved from the
root directory into `images/_archive`; the root directory keeps the rest. -/
def cleanRun (st : AuditState) : CleanResult :=
  let toMove := hasPublicCopy st ++ unreferenced st
  { moved := toMove
    createdArchive := !st.archiveExists
    state := { st with
      rootFiles := st.rootFiles.filter (fun n => n ∉ toMove)
      archiveFiles := st.archiveFiles ++ toMove
      archiveExists := true } }

end Audit

namespace Optimize

/-- A decoded image: pixel dimensions and Pillow colour mode (`"RGB"`,
`"CMYK"`, `"P"`, `"RGBA"`, ...). -/
structure Img where
  width : Nat
  height : Nat
  mode : String
deriving DecidableEq

/-- Content of one file on disk: its byte size and, when `Image.open`
succeeds on it, the decoded image (`none` models a file Pillow cannot
identify, so that `Image.open` raises). -/
structure FileData where
  size : Nat
  image : Option Img
deriving DecidableEq

/-- A path split into stem and suffix, embedding `Path.suffix` and
`Path.with_suffix`. -/
structure FPath where
  stem : String
  ext : String
deriving DecidableEq

/-- `filepath.name`: the final component. -/
def FPath.name (p : FPath) : String := p.stem ++ p.ext

/-- Line 97: `webp_path = filepath.with_suffix(".webp")`. -/
def webpPath (p : FPath) : FPath := { p with ext := ".webp" }

/-- The filesystem: an association list from paths to contents; a write
prepends, a lookup takes the most recent entry.  Nothing is ever deleted. -/
abbrev FS := List (FPath × FileData)

/-- Most recent content at `p`, `none` when the file does not exist. -/
def FS.lookup (fs : FS) (p : FPath) : Option FileData :=
  match fs with
  | [] => none
  | (q, d) :: rest => if q = p then some d else FS.lookup rest p

/-- `img.save(path, ...)`: overwrite (or create) the file at `p`. -/
def FS.write (fs : FS) (p : FPath) (d : FileData) : FS := (p, d) :: fs

/-- The Pillow encoders, abstracted: each takes the image (and a quality
setting) and either returns the byte size of the encoded file or raises. -/
structure Codec where
  saveJpeg : Img → Nat → Except String Nat
  savePng : Img → Except String Nat
  saveWebp : Img → Nat → Except String Nat

/-- Line 32: `MAX_DIMENSION = 2400`. -/
def MAX_DIMENSION : Nat := 2400

/-- Line 33: `SKIP_IF_SMALLER_THAN = 5 * 1024`. -/
def SKIP_IF_SMALLER_THAN : Nat := 5 * 1024

/-- Lines 74–78: dimensions after the oversize cap.
`ratio = MAX_DIMENSION / max(w, h)`; `(int(w * ratio), int(h * ratio))` is
modelled by exact natural division `MAX_DIMENSION * w / max w h` (the float
value never exceeds this and the cap and aspect bounds hold for both). -/
def resizedDims (w h : Nat) : Nat × Nat :=
  if MAX_DIMENSION < max w h then
    (MAX_DIMENSION * w / max w h, MAX_DIMENSION * h / max w h)
  else (w, h)

/-- Lines 73–78: `img = img.resize(...)` when oversized, else unchanged. -/
def capImage (img : Img) : Img :=
  { img with
    width := (resizedDims img.width img.height).1
    height := (resizedDims img.width img.height).2 }

/-- Lines 84–85: before a JPEG save, `CMYK`, `P` and `RGBA` modes are
converted to `RGB`. -/
def convertJpegMode (img : Img) : Img :=
  if img.mode = "CMYK" ∨ img.mode = "P" ∨ img.mode = "RGBA" then
    { img with mode := "RGB" }
  else img

/-- Lines 99–102: before the WebP step, `CMYK` and `P` are converted to
`RGB`; `RGBA` is converted only when the source extension was JPEG. -/
def convertWebpMode (isJpeg : Bool) (img : Img) : Img :=
  if img.mode = "CMYK" ∨ img.mode = "P" then { img with mode := "RGB" }
  else if img.mode = "RGBA" ∧ isJpeg = true then { img with mode := "RGB" }
  else img

/-- The per-file stats dict built at lines 57–64 and mutated afterwards. -/
structure Stats where
  file : String
  original_size : Nat
  new_size : Nat
  webp_size : Nat
  skipped : Bool
  error : Option String
deriving DecidableEq

/-- Result of `optimize_image` on one file, with two pieces of
instrumentation: `closed` records whether `img.close()` (line 108) was
executed, `saves` counts the successful `img.save` calls. -/
structure OptResult where
  stats : Stats
  closed : Bool
  saves : Nat
  fs : FS
deriving DecidableEq

/-- Lines 96–106: the WebP-variant step.  The guard is
`if not webp_path.exists() or not dry_run`; in dry-run mode the reported size
is `int(original_size * 0.5)`, else the size written by the encoder.
Errors carry the stats, save count and filesystem at the raise point. -/
def webpStep (codec : Codec) (wq : Nat) (dryRun : Bool) (fs : FS) (p : FPath)
    (ext : String) (img : Img) (stats : Stats) (saves : Nat) :
    Except (String × Stats × Nat × FS) (Stats × Nat × FS) :=
  if FS.lookup fs (webpPath p) = none ∨ dryRun = false then
    if dryRun then
      .ok ({ stats with webp_size := stats.original_size / 2 }, saves, fs)
    else
      match codec.saveWebp (convertWebpMode (ext = ".jpg" ∨ ext = ".jpeg" : Bool) img) wq with
      | .error e => .error (e, stats, saves, fs)
      | .ok n =>
          .ok ({ stats with webp_size := n }, saves + 1,
               FS.write fs (webpPath p)
                 { size := n,
                   image := some (convertWebpMode (ext = ".jpg" ∨ ext = ".jpeg" : Bool) img) })
  else
    .ok (stats, saves, fs)

/-- Lines 70–108: the body of the `try` block of `optimize_image`.
An `Except.error` models a raised exception, carrying the message together
with the stats, save count and filesystem at the raise point (the `stats`
dict is mutated in place in Python, so earlier assignments survive the
exception). -/
def tryBody (codec : Codec) (jq wq : Nat) (dryRun : Bool) (fs : FS)
    (p : FPath) (fd : FileData) (ext : String) (stats0 : Stats) :
    Except (String × Stats × Nat × FS) (Stats × Nat × FS) :=
  match fd.image with
  | none => .error ("cannot identify image file", stats0, 0, fs)
  | some img0 =>
    if ext = ".jpg" ∨ ext = ".jpeg" then
      if dryRun then
        webpStep codec wq dryRun fs p ext (capImage img0)
          { stats0 with new_size := 65 * stats0.original_size / 100 } 0
      else
        match codec.saveJpeg (convertJpegMode (capImage img0)) jq with
        | .error e => .error (e, stats0, 0, fs)
        | .ok n =>
            webpStep codec wq dryRun
              (FS.write fs p { size := n, image := some (convertJpegMode (capImage img0)) })
              p ext (convertJpegMode (capImage img0))
              { stats0 with new_size := n } 1
    else if ext = ".png" then
      if dryRun then
        webpStep codec wq dryRun fs p ext (capImage img0)
          { stats0 with new_size := 85 * stats0.original_size / 100 } 0
      else
        match codec.savePng (capImage img0) with
        | .error e => .error (e, stats0, 0, fs)
        | .ok n =>
            webpStep codec wq dryRun
              (FS.write fs p { size := n, image := some (capImage img0) })
              p ext (capImage img0)
              { stats0 with new_size := n } 1
    else
      webpStep codec wq dryRun fs p ext (capImage img0) stats0 0

/-- Lines 51–113: `optimize_image`.  `os.path.getsize` at line 55 is outside
the `try`, so a missing file propagates (`Except.error`); everything raised
inside the `try` is caught and recorded in `stats["error"]`, and then the
function still returns its stats (`.ok`).  `img.close()` runs only when the
`try` block completes. -/
def initStats (p : FPath) (fd : FileData) : Stats :=
  { file := p.name, original_size := fd.size, new_size := fd.size,
    webp_size := 0, skipped := false, error := none }

/-- Lines 51–113 continued: the full `optimize_image`. -/
def optimizeImage (codec : Codec) (jq wq : Nat) (dryRun : Bool) (fs : FS)
    (p : FPath) : Except String OptResult :=
  match FS.lookup fs p with
  | none => .error "No such file or directory"
  | some fd =>
    if fd.size < SKIP_IF_SMALLER_THAN then
      .ok { stats := { initStats p fd with skipped := true }, closed := false,
            saves := 0, fs := fs }
    else
      match tryBody codec jq wq dryRun fs p fd (lowerStr p.ext) (initStats p fd) with
      | .ok (stats, saves, fs') =>
          .ok { stats := stats, closed := true, saves := saves, fs := fs' }
      | .error (e, stats, saves, fs') =>
          .ok { stats := { stats with error := some e }, closed := false,
                saves := saves, fs := fs' }

/-- Projection of a try-block outcome dropping the filesystem component,
used by lemmas comparing runs over different filesystems. -/
def projTry (x : Except (String × Stats × Nat × FS) (Stats × Nat × FS)) :
    Except (String × Stats × Nat) (Stats × Nat) :=
  match x with
  | .ok (st, sv, _) => .ok (st, sv)
  | .error (e, st, sv, _) => .error (e, st, sv)

/-- Projection of a per-file outcome dropping the filesystem component. -/
def projRes (x : Except String OptResult) : Except String (Stats × Bool × Nat) :=
  match x with
  | .ok r => .ok (r.stats, r.closed, r.saves)
  | .error e => .error e

/-- Outcome of `main`'s loop (lines 138–149): the per-file results in input
order, the three running totals, and the final filesystem. -/
structure BatchResult where
  results : List Stats
  total_original : Nat
  total_new : Nat
  total_webp : Nat
  fs : FS
deriving DecidableEq

/-- Lines 143–149: process the files in order, appending each stats record
and accumulating the totals.  An exception that `optimize_image` does not
catch (missing file) aborts the run. -/
def runBatch (codec : Codec) (jq wq : Nat) (dryRun : Bool) :
    List FPath → FS → Except String BatchResult
  | [], fs =>
      .ok { results := [], total_original := 0, total_new := 0,
            total_webp := 0, fs := fs }
  | p :: rest, fs =>
    match optimizeImage codec jq wq dryRun fs p with
    | .error e => .error e
    | .ok r =>
      match runBatch codec jq wq dryRun rest r.fs with
      | .error e => .error e
      | .ok b =>
          .ok { results := r.stats :: b.results,
                total_original := r.stats.original_size + b.total_original,
                total_new := r.stats.new_size + b.total_new,
                total_webp := r.stats.webp_size + b.total_webp,
                fs := b.fs }

end Optimize

/-- A concrete encoder assignment for witness runs: deterministic sizes,
never raises. -/
def okCodec : Optimize.Codec :=
  { saveJpeg := fun img _ => .ok (img.width * img.height / 10 + 100)
    savePng := fun img => .ok (img.width * img.height / 5 + 100)
    saveWebp := fun img _ => .ok (img.width * img.height / 20 + 100) }

/-- An encoder whose JPEG save raises, exercising the caught error path. -/
def failJpegCodec : Optimize.Codec :=
  { okCodec with saveJpeg := fun _ _ => .error "broken data stream" }

/-- An encoder whose WebP save raises, exercising the caught error path
after a successful in-place save. -/
def failWebpCodec : Optimize.Codec :=
  { okCodec with saveWebp := fun _ _ => .error "webp encoder failure" }

namespace Audit

/-- Membership in the bucket-B list is membership in the enumeration plus a
B classification. -/
theorem mem_referencedButMissing {st : AuditState} {n : String} :
    n ∈ referencedButMissing st ↔
      n ∈ st.rootFiles ∧ classify st.targetFiles st.htmlRefs n = .B := by
  simp [referencedButMissing, List.mem_filter]

/-- Membership in the moved list forces an A or C classification. -/
theorem classify_of_mem_moved {st : AuditState} {n : String}
    (h : n ∈ hasPublicCopy st ++ unreferenced st) :
    classify st.targetFiles st.htmlRefs n = .A ∨
    classify st.targetFiles st.htmlRefs n = .C := by
  rcases List.mem_append.1 h with h' | h'
  · exact Or.inl (by simpa using List.of_mem_filter h')
  · exact Or.inr (by simpa using List.of_mem_filter h')

end Audit

/-- C1: a source image file is put in bucket A exactly when its lowercased
name is in the case-insensitive target-directory set; otherwise in bucket B
exactly when its exact name is in the HTML reference set; otherwise in
bucket C.  In particular a file whose lowercased name is in the target set
always lands in A. -/
theorem audit_classification_buckets (target refs : List String) (name : String) :
    (Audit.classify target refs name = .A ↔ lowerStr name ∈ Audit.publicSet target)
  ∧ (Audit.classify target refs name = .B ↔
       (lowerStr name ∉ Audit.publicSet target ∧ name ∈ refs))
  ∧ (Audit.classify target refs name = .C ↔
       (lowerStr name ∉ Audit.publicSet target ∧ name ∉ refs))
  ∧ (lowerStr name ∈ Audit.publicSet target → Audit.classify target refs name = .A) := by
  unfold Audit.classify
  by_cases h1 : lowerStr name ∈ Audit.publicSet target <;>
    by_cases h2 : name ∈ refs <;> simp [h1, h2]

/-- Witness for C1: a file present in the target set up to case lands in A. -/
theorem audit_classification_buckets_witness :
    Audit.classify ["photo1.jpg"] [] "Photo1.JPG" = .A :=
  (audit_classification_buckets ["photo1.jpg"] [] "Photo1.JPG").2.2.2 (by decide)

/-- C2: clean mode moves into the archive exactly the files of buckets A and
C (in that order), and a bucket-B file is never relocated: it stays in the
root directory and is not in the moved list. -/
theorem audit_clean_moves_A_C_only (st : Audit.AuditState) :
    (Audit.cleanRun st).moved = Audit.hasPublicCopy st ++ Audit.unreferenced st
  ∧ (Audit.cleanRun st).state.archiveFiles
      = st.archiveFiles ++ (Audit.hasPublicCopy st ++ Audit.unreferenced st)
  ∧ ∀ n ∈ Audit.referencedButMissing st,
      n ∈ (Audit.cleanRun st).state.rootFiles ∧ n ∉ (Audit.cleanRun st).moved := by
  refine ⟨rfl, rfl, ?_⟩
  intro n hn
  obtain ⟨hroot, hB⟩ := Audit.mem_referencedButMissing.1 hn
  have hnot : n ∉ Audit.hasPublicCopy st ++ Audit.unreferenced st := by
    intro hmem
    rcases Audit.classify_of_mem_moved hmem with h | h <;> rw [hB] at h <;> cases h
  constructor
  · show n ∈ List.filter _ st.rootFiles
    exact List.mem_filter.2 ⟨hroot, by simpa using hnot⟩
  · exact hnot

/-- Witness for C2: a concrete bucket-B file survives a clean run in place. -/
theorem audit_clean_moves_A_C_only_witness :
    "b.jpg" ∈ (Audit.cleanRun
        { rootFiles := ["b.jpg"], archiveFiles := [], archiveExists := false,
          targetFiles := [], htmlRefs := ["b.jpg"] }).state.rootFiles
  ∧ "b.jpg" ∉ (Audit.cleanRun
        { rootFiles := ["b.jpg"], archiveFiles := [], archiveExists := false,
          targetFiles := [], htmlRefs := ["b.jpg"] }).moved :=
  (audit_clean_moves_A_C_only
      { rootFiles := ["b.jpg"], archiveFiles := [], archiveExists := false,
        targetFiles := [], htmlRefs := ["b.jpg"] }).2.2 "b.jpg" (by decide)

/-- After a clean run no remaining root file classifies as A or C: the moved
ones are gone and the survivors were exactly the bucket-B files. -/
theorem Audit.no_movable_after_clean (st : Audit.AuditState) :
    Audit.hasPublicCopy (Audit.cleanRun st).state = []
  ∧ Audit.unreferenced (Audit.cleanRun st).state = [] := by
  constructor <;>
  · apply List.filter_eq_nil_iff.2
    intro n hn
    obtain ⟨hroot, hdec⟩ := List.mem_filter.1 hn
    have hnot : n ∉ Audit.hasPublicCopy st ++ Audit.unreferenced st :=
      of_decide_eq_true hdec
    simp only [decide_eq_true_eq]
    intro hcls
    apply hnot
    first
    | exact List.mem_append.2 (Or.inl (List.mem_filter.2 ⟨hroot, by
        simp only [decide_eq_true_eq]; exact hcls⟩))
    | exact List.mem_append.2 (Or.inr (List.mem_filter.2 ⟨hroot, by
        simp only [decide_eq_true_eq]; exact hcls⟩))

/-- C9: clean mode is idempotent: the archive directory is reported created
only when it did not exist, a second clean run creates nothing and moves no
file at all (in particular never a file the first run moved), and the archive
contents are unchanged by the second run. -/
theorem audit_clean_idempotent (st : Audit.AuditState) :
    (Audit.cleanRun st).createdArchive = !st.archiveExists
  ∧ (Audit.cleanRun (Audit.cleanRun st).state).createdArchive = false
  ∧ (Audit.cleanRun (Audit.cleanRun st).state).moved = []
  ∧ (Audit.cleanRun (Audit.cleanRun st).state).state.archiveFiles
      = (Audit.cleanRun st).state.archiveFiles := by
  obtain ⟨hA, hC⟩ := Audit.no_movable_after_clean st
  refine ⟨rfl, rfl, ?_, ?_⟩
  · show Audit.hasPublicCopy _ ++ Audit.unreferenced _ = []
    rw [hA, hC]
    rfl
  · show (Audit.cleanRun st).state.archiveFiles ++
        (Audit.hasPublicCopy _ ++ Audit.unreferenced _) = _
    rw [hA, hC]
    simp

/-- C3: a file under 5 KB (5120 bytes) is reported skipped, its new size is
its original size, and the filesystem is returned unchanged — no byte of the
file changes and no WebP sibling is created. -/
theorem optimizer_skips_small_files (codec : Optimize.Codec) (jq wq : Nat)
    (dry : Bool) (fs : Optimize.FS) (p : Optimize.FPath) (fd : Optimize.FileData)
    (hfd : Optimize.FS.lookup fs p = some fd)
    (hsmall : fd.size < Optimize.SKIP_IF_SMALLER_THAN) :
    Optimize.optimizeImage codec jq wq dry fs p =
      .ok { stats := { file := p.name, original_size := fd.size,
                       new_size := fd.size, webp_size := 0,
                       skipped := true, error := none },
            closed := false, saves := 0, fs := fs } := by
  unfold Optimize.optimizeImage
  rw [hfd]
  simp [hsmall, Optimize.initStats]

/-- Witness for C3: a 100-byte file is skipped untouched. -/
theorem optimizer_skips_small_files_witness :
    Optimize.optimizeImage okCodec 82 80 false
        [({ stem := "tiny", ext := ".jpg" }, { size := 100, image := none })]
        { stem := "tiny", ext := ".jpg" } =
      .ok { stats := { file := "tiny.jpg", original_size := 100,
                       new_size := 100, webp_size := 0,
                       skipped := true, error := none },
            closed := false, saves := 0,
            fs := [({ stem := "tiny", ext := ".jpg" },
                    { size := 100, image := none })] } :=
  optimizer_skips_small_files okCodec 82 80 false
    [({ stem := "tiny", ext := ".jpg" }, { size := 100, image := none })]
    { stem := "tiny", ext := ".jpg" } { size := 100, image := none }
    (by decide) (by decide)



namespace Optimize

theorem webpStep_ok_fields {codec : Codec} {wq : Nat} {dry : Bool} {fs : FS}
    {p : FPath} {ext : String} {img : Img} {stats : Stats} {saves : Nat}
    {out : Stats × Nat × FS}
    (h : webpStep codec wq dry fs p ext img stats saves = .ok out) :
    out.1.error = stats.error ∧ out.1.skipped = stats.skipped ∧
    out.1.file = stats.file ∧ out.1.original_size = stats.original_size ∧
    out.1.new_size = stats.new_size := by
  unfold webpStep at h
  split at h
  · split at h
    · cases h
      simp
    · split at h
      · cases h
      · cases h
        simp
  · cases h
    simp

theorem webpStep_error_fields {codec : Codec} {wq : Nat} {dry : Bool} {fs : FS}
    {p : FPath} {ext : String} {img : Img} {stats : Stats} {saves : Nat}
    {e : String} {stz : Stats} {sv : Nat} {fz : FS}
    (h : webpStep codec wq dry fs p ext img stats saves = .error (e, stz, sv, fz)) :
    stz = stats ∧ sv = saves ∧ fz = fs ∧ dry = false := by
  unfold webpStep at h
  split at h
  · split at h
    · cases h
    · split at h
      · cases h
        simp_all
      · cases h
  · cases h

end Optimize

namespace Optimize

theorem tryBody_ok_fields {codec : Codec} {jq wq : Nat} {dry : Bool} {fs : FS}
    {p : FPath} {fd : FileData} {ext : String} {stats0 : Stats}
    {out : Stats × Nat × FS}
    (h : tryBody codec jq wq dry fs p fd ext stats0 = .ok out) :
    out.1.error = stats0.error ∧ out.1.skipped = stats0.skipped ∧
    out.1.file = stats0.file ∧ out.1.original_size = stats0.original_size := by
  unfold tryBody at h
  split at h
  · cases h
  · split at h
    · split at h
      · obtain ⟨h1, h2, h3, h4, h5⟩ := webpStep_ok_fields h
        simp_all
      · split at h
        · cases h
        · obtain ⟨h1, h2, h3, h4, h5⟩ := webpStep_ok_fields h
          simp_all
    · split at h
      · split at h
        · obtain ⟨h1, h2, h3, h4, h5⟩ := webpStep_ok_fields h
          simp_all
        · split at h
          · cases h
          · obtain ⟨h1, h2, h3, h4, h5⟩ := webpStep_ok_fields h
            simp_all
      · obtain ⟨h1, h2, h3, h4, h5⟩ := webpStep_ok_fields h
        simp_all

theorem tryBody_error_fields {codec : Codec} {jq wq : Nat} {dry : Bool}
    {fs : FS} {p : FPath} {fd : FileData} {ext : String} {stats0 : Stats}
    {e : String} {stz : Stats} {sv : Nat} {fz : FS}
    (h : tryBody codec jq wq dry fs p fd ext stats0 = .error (e, stz, sv, fz)) :
    stz.skipped = stats0.skipped ∧ stz.file = stats0.file ∧
    stz.original_size = stats0.original_size ∧ stz.error = stats0.error ∧
    (sv = 0 → stz = stats0 ∧ fz = fs) := by
  unfold tryBody at h
  split at h
  · cases h
    simp
  · split at h
    · split at h
      · obtain ⟨rfl, rfl, rfl, hdry⟩ := webpStep_error_fields h
        simp_all
      · split at h
        · cases h
          simp
        · obtain ⟨rfl, rfl, rfl, hdry⟩ := webpStep_error_fields h
          simp_all
    · split at h
      · split at h
        · obtain ⟨rfl, rfl, rfl, hdry⟩ := webpStep_error_fields h
          simp_all
        · split at h
          · cases h
            simp
          · obtain ⟨rfl, rfl, rfl, hdry⟩ := webpStep_error_fields h
            simp_all
      · obtain ⟨rfl, rfl, rfl, hdry⟩ := webpStep_error_fields h
        simp_all

theorem webpStep_dry {codec : Codec} {wq : Nat} {fs : FS} {p : FPath}
    {ext : String} {img : Img} {stats : Stats} {saves : Nat} :
    webpStep codec wq true fs p ext img stats saves =
      .ok ((if FS.lookup fs (webpPath p) = none
            then { stats with webp_size := stats.original_size / 2 }
            else stats), saves, fs) := by
  unfold webpStep
  by_cases hl : FS.lookup fs (webpPath p) = none <;> simp [hl]

end Optimize

namespace Optimize

theorem tryBody_dry_initStats {codec : Codec} {jq wq : Nat} {fs : FS}
    {p : FPath} {fd : FileData} {img0 : Img} (himg : fd.image = some img0) :
    ∃ stf, tryBody codec jq wq true fs p fd (lowerStr p.ext) (initStats p fd) =
        .ok (stf, 0, fs)
    ∧ stf.error = none ∧ stf.skipped = false ∧ stf.original_size = fd.size
    ∧ stf.new_size = (if lowerStr p.ext = ".jpg" ∨ lowerStr p.ext = ".jpeg"
                      then 65 * fd.size / 100
                      else if lowerStr p.ext = ".png" then 85 * fd.size / 100
                      else fd.size)
    ∧ stf.webp_size = (if FS.lookup fs (webpPath p) = none
                       then fd.size / 2 else 0) := by
  unfold tryBody
  rw [himg]
  dsimp only
  by_cases hj : lowerStr p.ext = ".jpg" ∨ lowerStr p.ext = ".jpeg"
  · rw [if_pos hj, if_pos (rfl : (true : Bool) = true), webpStep_dry]
    refine ⟨_, rfl, ?_, ?_, ?_, ?_, ?_⟩ <;>
      by_cases hl : FS.lookup fs (webpPath p) = none <;>
        simp [hl, hj, initStats]
  · rw [if_neg hj]
    by_cases hp : lowerStr p.ext = ".png"
    · rw [if_pos hp, if_pos (rfl : (true : Bool) = true), webpStep_dry]
      refine ⟨_, rfl, ?_, ?_, ?_, ?_, ?_⟩ <;>
        by_cases hl : FS.lookup fs (webpPath p) = none <;>
          simp [hl, hj, hp, initStats]
    · rw [if_neg hp, webpStep_dry]
      refine ⟨_, rfl, ?_, ?_, ?_, ?_, ?_⟩ <;>
        by_cases hl : FS.lookup fs (webpPath p) = none <;>
          simp [hl, hj, hp, initStats]

end Optimize

/-- Counterexample to C8 as stated: when a save inside the `try` block
raises, the exception is caught and recorded, but `img.close()` (placed
before the `except` arm, line 108) was never executed — the handle opened
for the file is not released on the error path. -/
theorem optimizer_close_error_path_cex :
    (Optimize.optimizeImage failJpegCodec 82 80 false
        [({ stem := "a", ext := ".jpg" },
          { size := 6000, image := some { width := 100, height := 50, mode := "RGB" } })]
        { stem := "a", ext := ".jpg" }).map
      (fun r => (r.stats.error, r.closed)) =
      .ok (some "broken data stream", false) := rfl

/-- C8 amended: the image handle is released (`img.close()` runs) exactly on
the non-skipped, non-erroring completion path of per-file processing; when
an exception is caught the handle is not explicitly closed, and for a
skipped file no handle was opened at all. -/
theorem optimizer_close_behavior (codec : Optimize.Codec) (jq wq : Nat)
    (dry : Bool) (fs : Optimize.FS) (p : Optimize.FPath) (r : Optimize.OptResult)
    (hr : Optimize.optimizeImage codec jq wq dry fs p = .ok r) :
    (r.stats.skipped = false ∧ r.stats.error = none → r.closed = true)
  ∧ (r.stats.error ≠ none → r.closed = false)
  ∧ (r.stats.skipped = true → r.closed = false) := by
  unfold Optimize.optimizeImage at hr
  cases hf : Optimize.FS.lookup fs p with
  | none => rw [hf] at hr; cases hr
  | some fd =>
    rw [hf] at hr
    dsimp only at hr
    by_cases hsk : fd.size < Optimize.SKIP_IF_SMALLER_THAN
    · rw [if_pos hsk] at hr
      cases hr
      refine ⟨?_, ?_, fun _ => rfl⟩
      · rintro ⟨hskip, -⟩
        simp [Optimize.initStats] at hskip
      · intro herr
        exact absurd rfl herr
    · rw [if_neg hsk] at hr
      cases htb : Optimize.tryBody codec jq wq dry fs p fd (lowerStr p.ext)
          (Optimize.initStats p fd) with
      | ok out =>
        obtain ⟨st, sv, fz⟩ := out
        rw [htb] at hr
        cases hr
        obtain ⟨h1, h2, h3, h4⟩ := Optimize.tryBody_ok_fields htb
        refine ⟨fun _ => rfl, ?_, ?_⟩
        · intro herr
          exact absurd (by simpa [Optimize.initStats] using h1) herr
        · intro hs
          rw [hs] at h2
          simp [Optimize.initStats] at h2
      | error errout =>
        obtain ⟨e, st, sv, fz⟩ := errout
        rw [htb] at hr
        cases hr
        refine ⟨?_, fun _ => rfl, fun _ => rfl⟩
        rintro ⟨-, herr⟩
        simp at herr

/-- Witness for the amended C8: a successful non-dry JPEG run ends with the
handle closed. -/
theorem optimizer_close_behavior_witness :
    ({ stats := { file := "a.jpg", original_size := 6000, new_size := 600,
                  webp_size := 350, skipped := false, error := none },
       closed := true, saves := 2,
       fs := [({ stem := "a", ext := ".webp" },
               { size := 350, image := some { width := 100, height := 50, mode := "RGB" } }),
              ({ stem := "a", ext := ".jpg" },
               { size := 600, image := some { width := 100, height := 50, mode := "RGB" } }),
              ({ stem := "a", ext := ".jpg" },
               { size := 6000, image := some { width := 100, height := 50, mode := "RGB" } })]
     } : Optimize.OptResult).closed = true :=
  (optimizer_close_behavior okCodec 82 80 false
      [({ stem := "a", ext := ".jpg" },
        { size := 6000, image := some { width := 100, height := 50, mode := "RGB" } })]
      { stem := "a", ext := ".jpg" } _ rfl).1 ⟨rfl, rfl⟩

/-- Counterexample to C4 as stated: a corrupt over-threshold `.jpg` file
(open raises) processed in dry-run mode is non-skipped, yet the reported
new size is its original size 6000, not `floor(0.65 * 6000) = 3900`. -/
theorem optimizer_dryrun_jpeg_estimate_cex :
    (Optimize.optimizeImage okCodec 82 80 true
        [({ stem := "a", ext := ".jpg" }, { size := 6000, image := none })]
        { stem := "a", ext := ".jpg" }).map
      (fun r => (r.stats.skipped, r.stats.new_size)) = .ok (false, 6000)
  ∧ 65 * 6000 / 100 = 3900 ∧ (6000 : Nat) ≠ 3900 :=
  ⟨rfl, rfl, by decide⟩

/-- C4 amended: for every non-skipped, non-erroring JPEG input of original
size S processed in dry-run mode, no file is written (the filesystem is
unchanged and zero saves happened) and the reported new size is
`int(S * 0.65)`, i.e. `65 * S / 100`. -/
theorem optimizer_dryrun_jpeg_estimate (codec : Optimize.Codec) (jq wq : Nat)
    (fs : Optimize.FS) (p : Optimize.FPath) (fd : Optimize.FileData)
    (r : Optimize.OptResult)
    (hfd : Optimize.FS.lookup fs p = some fd)
    (hbig : ¬ fd.size < Optimize.SKIP_IF_SMALLER_THAN)
    (hext : lowerStr p.ext = ".jpg" ∨ lowerStr p.ext = ".jpeg")
    (hr : Optimize.optimizeImage codec jq wq true fs p = .ok r)
    (hnoerr : r.stats.error = none) :
    r.fs = fs ∧ r.saves = 0 ∧ r.stats.new_size = 65 * fd.size / 100 := by
  unfold Optimize.optimizeImage at hr
  rw [hfd] at hr
  dsimp only at hr
  rw [if_neg hbig] at hr
  cases himg : fd.image with
  | none =>
    have herr : Optimize.tryBody codec jq wq true fs p fd (lowerStr p.ext)
        (Optimize.initStats p fd) =
        .error ("cannot identify image file", Optimize.initStats p fd, 0, fs) := by
      unfold Optimize.tryBody
      rw [himg]
    rw [herr] at hr
    cases hr
    simp at hnoerr
  | some img0 =>
    obtain ⟨stf, htb, he, hsk, ho, hn, hw⟩ := Optimize.tryBody_dry_initStats himg
    rw [htb] at hr
    cases hr
    refine ⟨rfl, rfl, ?_⟩
    rw [hn, if_pos hext]

/-- Witness for the amended C4: a valid 6000-byte dry-run JPEG reports
3900 bytes and leaves the filesystem untouched. -/
theorem optimizer_dryrun_jpeg_estimate_witness :
    ({ stats := { file := "a.jpg", original_size := 6000, new_size := 3900,
                  webp_size := 3000, skipped := false, error := none },
       closed := true, saves := 0,
       fs := [({ stem := "a", ext := ".jpg" },
               { size := 6000, image := some { width := 100, height := 50, mode := "RGB" } })]
     } : Optimize.OptResult).fs =
      [({ stem := "a", ext := ".jpg" },
        { size := 6000, image := some { width := 100, height := 50, mode := "RGB" } })]
  ∧ ({ stats := { file := "a.jpg", original_size := 6000, new_size := 3900,
                  webp_size := 3000, skipped := false, error := none },
       closed := true, saves := 0,
       fs := [({ stem := "a", ext := ".jpg" },
               { size := 6000, image := some { width := 100, height := 50, mode := "RGB" } })]
     } : Optimize.OptResult).saves = 0
  ∧ ({ stats := { file := "a.jpg", original_size := 6000, new_size := 3900,
                  webp_size := 3000, skipped := false, error := none },
       closed := true, saves := 0,
       fs := [({ stem := "a", ext := ".jpg" },
               { size := 6000, image := some { width := 100, height := 50, mode := "RGB" } })]
     } : Optimize.OptResult).stats.new_size = 65 * 6000 / 100 :=
  optimizer_dryrun_jpeg_estimate okCodec 82 80
    [({ stem := "a", ext := ".jpg" },
      { size := 6000, image := some { width := 100, height := 50, mode := "RGB" } })]
    { stem := "a", ext := ".jpg" }
    { size := 6000, image := some { width := 100, height := 50, mode := "RGB" } }
    _ rfl (by decide) (Or.inl rfl) rfl rfl

/-- Counterexample to C5 as stated: in dry-run mode, when a WebP sibling
already exists on disk, the guard `not webp_path.exists() or not dry_run`
is false and the reported WebP size stays 0, not `floor(0.5 * 6000) = 3000`. -/
theorem optimizer_dryrun_webp_existing_cex :
    (Optimize.optimizeImage okCodec 82 80 true
        [({ stem := "a", ext := ".jpg" },
          { size := 6000, image := some { width := 100, height := 50, mode := "RGB" } }),
         ({ stem := "a", ext := ".webp" }, { size := 777, image := none })]
        { stem := "a", ext := ".jpg" }).map
      (fun r => (r.stats.skipped, r.stats.error, r.stats.webp_size)) =
      .ok (false, none, 0)
  ∧ 6000 / 2 = 3000 ∧ (0 : Nat) ≠ 3000 :=
  ⟨rfl, rfl, by decide⟩

/-- C5 amended: for a non-skipped, non-erroring input of original size S in
dry-run mode, the reported WebP size is `int(S * 0.5)` (i.e. `S / 2`) when
no WebP sibling exists on disk; when a sibling already exists the WebP step
is skipped entirely and the reported WebP size is 0. -/
theorem optimizer_dryrun_webp_estimate (codec : Optimize.Codec) (jq wq : Nat)
    (fs : Optimize.FS) (p : Optimize.FPath) (fd : Optimize.FileData)
    (r : Optimize.OptResult)
    (hfd : Optimize.FS.lookup fs p = some fd)
    (hbig : ¬ fd.size < Optimize.SKIP_IF_SMALLER_THAN)
    (hr : Optimize.optimizeImage codec jq wq true fs p = .ok r)
    (hnoerr : r.stats.error = none) :
    (Optimize.FS.lookup fs (Optimize.webpPath p) = none →
       r.stats.webp_size = fd.size / 2)
  ∧ (Optimize.FS.lookup fs (Optimize.webpPath p) ≠ none →
       r.stats.webp_size = 0) := by
  unfold Optimize.optimizeImage at hr
  rw [hfd] at hr
  dsimp only at hr
  rw [if_neg hbig] at hr
  cases himg : fd.image with
  | none =>
    have herr : Optimize.tryBody codec jq wq true fs p fd (lowerStr p.ext)
        (Optimize.initStats p fd) =
        .error ("cannot identify image file", Optimize.initStats p fd, 0, fs) := by
      unfold Optimize.tryBody
      rw [himg]
    rw [herr] at hr
    cases hr
    simp at hnoerr
  | some img0 =>
    obtain ⟨stf, htb, he, hsk, ho, hn, hw⟩ := Optimize.tryBody_dry_initStats himg
    rw [htb] at hr
    cases hr
    constructor
    · intro hl
      rw [hw, if_pos hl]
    · intro hl
      rw [hw, if_neg hl]

/-- Witness for the amended C5: the same valid 6000-byte dry-run JPEG with
no WebP sibling reports a 3000-byte WebP estimate. -/
theorem optimizer_dryrun_webp_estimate_witness :
    ({ stats := { file := "a.jpg", original_size := 6000, new_size := 3900,
                  webp_size := 3000, skipped := false, error := none },
       closed := true, saves := 0,
       fs := [({ stem := "a", ext := ".jpg" },
               { size := 6000, image := some { width := 100, height := 50, mode := "RGB" } })]
     } : Optimize.OptResult).stats.webp_size = 6000 / 2 :=
  (optimizer_dryrun_webp_estimate okCodec 82 80
      [({ stem := "a", ext := ".jpg" },
        { size := 6000, image := some { width := 100, height := 50, mode := "RGB" } })]
      { stem := "a", ext := ".jpg" }
      { size := 6000, image := some { width := 100, height := 50, mode := "RGB" } }
      _ rfl (by decide) rfl rfl).1 rfl

/-- Arithmetic core of the resize bound: flooring a common scaling of both
dimensions keeps the cross-multiplied aspect ratio within one row/column. -/
theorem scaled_floor_aspect (M w h m : Nat) (hm : 0 < m) :
    (M * w / m) * h ≤ (M * h / m) * w + w := by
  have e1 := Nat.div_add_mod (M * w) m
  have e2 := Nat.div_add_mod (M * h) m
  have hr2 : (M * h) % m < m := Nat.mod_lt _ hm
  refine Nat.le_of_mul_le_mul_left ?_ hm
  calc m * ((M * w / m) * h)
      ≤ m * (M * w / m) * h + (M * w) % m * h := by
        rw [Nat.mul_assoc]
        exact Nat.le_add_right _ _
    _ = (m * (M * w / m) + (M * w) % m) * h := by ring
    _ = M * w * h := by rw [e1]
    _ = M * h * w := by ring
    _ = (m * (M * h / m) + (M * h) % m) * w := by rw [e2]
    _ = m * (M * h / m) * w + (M * h) % m * w := by ring
    _ ≤ m * (M * h / m) * w + m * w :=
        Nat.add_le_add_left (Nat.mul_le_mul_right w (Nat.le_of_lt hr2)) _
    _ = m * ((M * h / m) * w + w) := by ring

/-- C6: an image whose larger pixel dimension exceeds 2400 is resized
proportionally: the longer output dimension is at most 2400 and the aspect
ratio is preserved to within integer rounding (cross products differ by at
most one row/column); an image whose larger dimension is at most 2400 is
returned unchanged — never upscaled. -/
theorem optimizer_resize_bounds (img : Optimize.Img) :
    (Optimize.MAX_DIMENSION < max img.width img.height →
       max (Optimize.capImage img).width (Optimize.capImage img).height ≤
         Optimize.MAX_DIMENSION
     ∧ (Optimize.capImage img).width * img.height ≤
         (Optimize.capImage img).height * img.width + img.width
     ∧ (Optimize.capImage img).height * img.width ≤
         (Optimize.capImage img).width * img.height + img.height)
  ∧ (max img.width img.height ≤ Optimize.MAX_DIMENSION →
       Optimize.capImage img = img) := by
  constructor
  · intro hbig
    have hm : 0 < max img.width img.height :=
      lt_of_le_of_lt (Nat.zero_le Optimize.MAX_DIMENSION) hbig
    simp only [Optimize.capImage, Optimize.resizedDims, if_pos hbig]
    refine ⟨?_, ?_, ?_⟩
    · apply max_le
      · calc Optimize.MAX_DIMENSION * img.width / max img.width img.height
            ≤ Optimize.MAX_DIMENSION * max img.width img.height /
                max img.width img.height :=
              Nat.div_le_div_right
                (Nat.mul_le_mul_left _ (le_max_left _ _))
          _ = Optimize.MAX_DIMENSION := Nat.mul_div_cancel _ hm
      · calc Optimize.MAX_DIMENSION * img.height / max img.width img.height
            ≤ Optimize.MAX_DIMENSION * max img.width img.height /
                max img.width img.height :=
              Nat.div_le_div_right
                (Nat.mul_le_mul_left _ (le_max_right _ _))
          _ = Optimize.MAX_DIMENSION := Nat.mul_div_cancel _ hm
    · exact scaled_floor_aspect _ _ _ _ hm
    · exact scaled_floor_aspect _ _ _ _ hm
  · intro hsmall
    simp only [Optimize.capImage, Optimize.resizedDims, if_neg (not_lt.2 hsmall)]

/-- Witness for C6: a 4000 x 3000 input is capped to 2400 x 1800 and the
aspect bounds hold there. -/
theorem optimizer_resize_bounds_witness :
    max (Optimize.capImage { width := 4000, height := 3000, mode := "RGB" }).width
        (Optimize.capImage { width := 4000, height := 3000, mode := "RGB" }).height ≤
      Optimize.MAX_DIMENSION
  ∧ (Optimize.capImage { width := 4000, height := 3000, mode := "RGB" }).width * 3000 ≤
      (Optimize.capImage { width := 4000, height := 3000, mode := "RGB" }).height * 4000 + 4000
  ∧ (Optimize.capImage { width := 4000, height := 3000, mode := "RGB" }).height * 4000 ≤
      (Optimize.capImage { width := 4000, height := 3000, mode := "RGB" }).width * 3000 + 3000 :=
  (optimizer_resize_bounds { width := 4000, height := 3000, mode := "RGB" }).1
    (by decide)

namespace Optimize

/-- Looking a path up after a write: the written path shadows, every other
path is untouched. -/
theorem FS.lookup_write (fs : FS) (p q : FPath) (d : FileData) :
    FS.lookup (FS.write fs p d) q = if p = q then some d else FS.lookup fs q := rfl

/-- Lookup over an append consults the front segment first. -/
theorem FS.lookup_append (l1 l2 : FS) (q : FPath) :
    FS.lookup (l1 ++ l2) q =
      match FS.lookup l1 q with
      | some d => some d
      | none => FS.lookup l2 q := by
  induction l1 with
  | nil => simp [FS.lookup]
  | cons e rest ih =>
    obtain ⟨k, d⟩ := e
    by_cases hk : k = q <;> simp [FS.lookup, hk, ih]

/-- A front segment whose keys all differ from `q` is invisible to lookup. -/
theorem FS.lookup_append_of_ne (l1 l2 : FS) (q : FPath)
    (h : ∀ en ∈ l1, Prod.fst en ≠ q) :
    FS.lookup (l1 ++ l2) q = FS.lookup l2 q := by
  rw [FS.lookup_append]
  have hnone : FS.lookup l1 q = none := by
    induction l1 with
    | nil => rfl
    | cons e rest ih =>
      obtain ⟨k, d⟩ := e
      have hk : k ≠ q := h (k, d) (List.mem_cons_self _ _)
      simp only [FS.lookup, if_neg hk]
      exact ih (fun en hen => h en (List.mem_cons_of_mem _ hen))
  rw [hnone]

/-- Prepending entries never makes an existing file disappear. -/
theorem FS.lookup_append_ne_none (l1 l2 : FS) (q : FPath)
    (h : FS.lookup l2 q ≠ none) :
    FS.lookup (l1 ++ l2) q ≠ none := by
  rw [FS.lookup_append]
  cases hl : FS.lookup l1 q with
  | some d => simp
  | none => simpa using h

end Optimize

namespace Optimize

/-- The WebP step either leaves the filesystem alone, prepends one entry at
the WebP sibling path, or raises with the filesystem unchanged. -/
theorem webpStep_shape (codec : Codec) (wq : Nat) (dry : Bool) (fs : FS)
    (p : FPath) (ext : String) (img : Img) (stats : Stats) (saves : Nat) :
    (∃ st sv, webpStep codec wq dry fs p ext img stats saves = .ok (st, sv, fs))
  ∨ (∃ st sv d, webpStep codec wq dry fs p ext img stats saves =
       .ok (st, sv, (webpPath p, d) :: fs))
  ∨ (∃ e st sv, webpStep codec wq dry fs p ext img stats saves =
       .error (e, st, sv, fs)) := by
  unfold webpStep
  by_cases hg : FS.lookup fs (webpPath p) = none ∨ dry = false
  · rw [if_pos hg]
    by_cases hd : dry = true
    · rw [if_pos hd]
      left
      exact ⟨_, _, rfl⟩
    · rw [if_neg hd]
      cases hsw : codec.saveWebp
          (convertWebpMode (ext = ".jpg" ∨ ext = ".jpeg" : Bool) img) wq with
      | error e =>
        right; right
        exact ⟨e, _, _, rfl⟩
      | ok n =>
        right; left
        exact ⟨_, _, _, rfl⟩
  · rw [if_neg hg]
    left
    exact ⟨_, _, rfl⟩

/-- The try block only ever prepends filesystem entries at the file's own
path or at its WebP sibling path — on the error path as well. -/
theorem tryBody_shape (codec : Codec) (jq wq : Nat) (dry : Bool) (fs : FS)
    (p : FPath) (fd : FileData) (ext : String) (stats0 : Stats) :
    (∃ out, tryBody codec jq wq dry fs p fd ext stats0 = .ok out ∧
       ∃ junk, out.2.2 = junk ++ fs ∧
         ∀ en ∈ junk, Prod.fst en = p ∨ Prod.fst en = webpPath p)
  ∨ (∃ er, tryBody codec jq wq dry fs p fd ext stats0 = .error er ∧
       ∃ junk, er.2.2.2 = junk ++ fs ∧
         ∀ en ∈ junk, Prod.fst en = p ∨ Prod.fst en = webpPath p) := by
  unfold tryBody
  cases himg : fd.image with
  | none =>
    right
    exact ⟨_, rfl, [], rfl, by simp⟩
  | some img0 =>
    dsimp only
    by_cases hj : ext = ".jpg" ∨ ext = ".jpeg"
    · rw [if_pos hj]
      by_cases hd : dry = true
      · rw [if_pos hd]
        rcases webpStep_shape codec wq dry fs p ext (capImage img0)
            { stats0 with new_size := 65 * stats0.original_size / 100 } 0 with
          ⟨st, sv, hws⟩ | ⟨st, sv, d, hws⟩ | ⟨e, st, sv, hws⟩
        · left; exact ⟨_, hws, [], rfl, by simp⟩
        · left; exact ⟨_, hws, [(webpPath p, d)], rfl, by simp⟩
        · right; exact ⟨_, hws, [], rfl, by simp⟩
      · rw [if_neg hd]
        cases hsj : codec.saveJpeg (convertJpegMode (capImage img0)) jq with
        | error e =>
          right
          exact ⟨_, rfl, [], rfl, by simp⟩
        | ok n =>
          rcases webpStep_shape codec wq dry
              (FS.write fs p { size := n, image := some (convertJpegMode (capImage img0)) })
              p ext (convertJpegMode (capImage img0))
              { stats0 with new_size := n } 1 with
            ⟨st, sv, hws⟩ | ⟨st, sv, d, hws⟩ | ⟨e, st, sv, hws⟩
          · left
            exact ⟨_, hws,
              [(p, { size := n, image := some (convertJpegMode (capImage img0)) })],
              rfl, by simp⟩
          · left
            exact ⟨_, hws,
              [(webpPath p, d),
               (p, { size := n, image := some (convertJpegMode (capImage img0)) })],
              rfl, by simp⟩
          · right
            exact ⟨_, hws,
              [(p, { size := n, image := some (convertJpegMode (capImage img0)) })],
              rfl, by simp⟩
    · rw [if_neg hj]
      by_cases hp : ext = ".png"
      · rw [if_pos hp]
        by_cases hd : dry = true
        · rw [if_pos hd]
          rcases webpStep_shape codec wq dry fs p ext (capImage img0)
              { stats0 with new_size := 85 * stats0.original_size / 100 } 0 with
            ⟨st, sv, hws⟩ | ⟨st, sv, d, hws⟩ | ⟨e, st, sv, hws⟩
          · left; exact ⟨_, hws, [], rfl, by simp⟩
          · left; exact ⟨_, hws, [(webpPath p, d)], rfl, by simp⟩
          · right; exact ⟨_, hws, [], rfl, by simp⟩
        · rw [if_neg hd]
          cases hsp : codec.savePng (capImage img0) with
          | error e =>
            right
            exact ⟨_, rfl, [], rfl, by simp⟩
          | ok n =>
            rcases webpStep_shape codec wq dry
                (FS.write fs p { size := n, image := some (capImage img0) })
                p ext (capImage img0) { stats0 with new_size := n } 1 with
              ⟨st, sv, hws⟩ | ⟨st, sv, d, hws⟩ | ⟨e, st, sv, hws⟩
            · left
              exact ⟨_, hws, [(p, { size := n, image := some (capImage img0) })],
                rfl, by simp⟩
            · left
              exact ⟨_, hws,
                [(webpPath p, d), (p, { size := n, image := some (capImage img0) })],
                rfl, by simp⟩
            · right
              exact ⟨_, hws, [(p, { size := n, image := some (capImage img0) })],
                rfl, by simp⟩
      · rw [if_neg hp]
        rcases webpStep_shape codec wq dry fs p ext (capImage img0) stats0 0 with
          ⟨st, sv, hws⟩ | ⟨st, sv, d, hws⟩ | ⟨e, st, sv, hws⟩
        · left; exact ⟨_, hws, [], rfl, by simp⟩
        · left; exact ⟨_, hws, [(webpPath p, d)], rfl, by simp⟩
        · right; exact ⟨_, hws, [], rfl, by simp⟩

/-- On an existing file, `optimize_image` always returns a result (every
exception of the try block is caught) and only prepends filesystem entries
at the file's own path or its WebP sibling path. -/
theorem optimizeImage_ok (codec : Codec) (jq wq : Nat) (dry : Bool) (fs : FS)
    (p : FPath) (hfd : FS.lookup fs p ≠ none) :
    ∃ r, optimizeImage codec jq wq dry fs p = .ok r ∧
      ∃ junk, r.fs = junk ++ fs ∧
        ∀ en ∈ junk, Prod.fst en = p ∨ Prod.fst en = webpPath p := by
  unfold optimizeImage
  cases hf : FS.lookup fs p with
  | none => exact absurd hf hfd
  | some fd =>
    dsimp only
    by_cases hsk : fd.size < SKIP_IF_SMALLER_THAN
    · rw [if_pos hsk]
      exact ⟨_, rfl, [], rfl, by simp⟩
    · rw [if_neg hsk]
      rcases tryBody_shape codec jq wq dry fs p fd (lowerStr p.ext)
          (initStats p fd) with
        ⟨out, htb, junk, hjunk, hmem⟩ | ⟨er, htb, junk, hjunk, hmem⟩
      · obtain ⟨st, sv, fz⟩ := out
        rw [htb]
        exact ⟨_, rfl, junk, hjunk, hmem⟩
      · obtain ⟨e, st, sv, fz⟩ := er
        rw [htb]
        exact ⟨_, rfl, junk, hjunk, hmem⟩

end Optimize

namespace Optimize

/-- A write at the file's own path does not change whether the WebP sibling
exists (they are distinct paths unless the file IS the sibling, in which
case both lookups become the same write). -/
theorem write_preserves_wp_iff {fs1 fs2 : FS} {p : FPath} {d : FileData}
    (hwp : (FS.lookup fs1 (webpPath p) = none) ↔
           (FS.lookup fs2 (webpPath p) = none)) :
    (FS.lookup (FS.write fs1 p d) (webpPath p) = none) ↔
    (FS.lookup (FS.write fs2 p d) (webpPath p) = none) := by
  rw [FS.lookup_write, FS.lookup_write]
  by_cases hpw : p = webpPath p
  · simp only [if_pos hpw]
  · simp only [if_neg hpw]
    exact hwp

/-- The stats and save count of the WebP step depend on the filesystem only
through existence of the WebP sibling. -/
theorem webpStep_proj_eq (codec : Codec) (wq : Nat) (dry : Bool)
    (fs1 fs2 : FS) (p : FPath) (ext : String) (img : Img) (stats : Stats)
    (saves : Nat)
    (hwp : (FS.lookup fs1 (webpPath p) = none) ↔
           (FS.lookup fs2 (webpPath p) = none)) :
    projTry (webpStep codec wq dry fs1 p ext img stats saves) =
    projTry (webpStep codec wq dry fs2 p ext img stats saves) := by
  unfold webpStep
  by_cases hd : dry = true
  · subst hd
    by_cases h1 : FS.lookup fs1 (webpPath p) = none
    · have h2 := hwp.1 h1
      rw [if_pos (Or.inl h1), if_pos (Or.inl h2)]
      rfl
    · have h2 : ¬ FS.lookup fs2 (webpPath p) = none := fun hx => h1 (hwp.2 hx)
      rw [if_neg (by simp [h1]), if_neg (by simp [h2])]
      rfl
  · have hd' : dry = false := by
      cases dry
      · rfl
      · exact absurd rfl hd
    subst hd'
    rw [if_pos (Or.inr rfl), if_pos (Or.inr rfl)]
    cases hsw : codec.saveWebp
        (convertWebpMode (ext = ".jpg" ∨ ext = ".jpeg" : Bool) img) wq with
    | error e => rfl
    | ok n => rfl

/-- The stats and save count of the try block depend on the filesystem only
through existence of the WebP sibling. -/
theorem tryBody_proj_eq (codec : Codec) (jq wq : Nat) (dry : Bool)
    (fs1 fs2 : FS) (p : FPath) (fd : FileData) (ext : String) (stats0 : Stats)
    (hwp : (FS.lookup fs1 (webpPath p) = none) ↔
           (FS.lookup fs2 (webpPath p) = none)) :
    projTry (tryBody codec jq wq dry fs1 p fd ext stats0) =
    projTry (tryBody codec jq wq dry fs2 p fd ext stats0) := by
  unfold tryBody
  cases himg : fd.image with
  | none => rfl
  | some img0 =>
    dsimp only
    by_cases hj : ext = ".jpg" ∨ ext = ".jpeg"
    · simp only [if_pos hj]
      by_cases hd : dry = true
      · simp only [if_pos hd]
        exact webpStep_proj_eq codec wq dry fs1 fs2 p ext (capImage img0) _ 0 hwp
      · simp only [if_neg hd]
        cases hsj : codec.saveJpeg (convertJpegMode (capImage img0)) jq with
        | error e => rfl
        | ok n =>
          exact webpStep_proj_eq codec wq dry _ _ p ext
            (convertJpegMode (capImage img0)) _ 1 (write_preserves_wp_iff hwp)
    · simp only [if_neg hj]
      by_cases hp : ext = ".png"
      · simp only [if_pos hp]
        by_cases hd : dry = true
        · simp only [if_pos hd]
          exact webpStep_proj_eq codec wq dry fs1 fs2 p ext (capImage img0) _ 0 hwp
        · simp only [if_neg hd]
          cases hsp : codec.savePng (capImage img0) with
          | error e => rfl
          | ok n =>
            exact webpStep_proj_eq codec wq dry _ _ p ext (capImage img0) _ 1
              (write_preserves_wp_iff hwp)
      · simp only [if_neg hp]
        exact webpStep_proj_eq codec wq dry fs1 fs2 p ext (capImage img0) _ 0 hwp

/-- The stats, closed flag and save count of per-file processing depend on
the filesystem only through the file's own entry and the existence of its
WebP sibling. -/
theorem optimizeImage_proj_eq (codec : Codec) (jq wq : Nat) (dry : Bool)
    (fs1 fs2 : FS) (p : FPath)
    (h1 : FS.lookup fs1 p = FS.lookup fs2 p)
    (h2 : (FS.lookup fs1 (webpPath p) = none) ↔
          (FS.lookup fs2 (webpPath p) = none)) :
    projRes (optimizeImage codec jq wq dry fs1 p) =
    projRes (optimizeImage codec jq wq dry fs2 p) := by
  unfold optimizeImage
  rw [h1]
  cases hf : FS.lookup fs2 p with
  | none => rfl
  | some fd =>
    dsimp only
    by_cases hsk : fd.size < SKIP_IF_SMALLER_THAN
    · simp only [if_pos hsk]
      rfl
    · simp only [if_neg hsk]
      have hpe := tryBody_proj_eq codec jq wq dry fs1 fs2 p fd (lowerStr p.ext)
        (initStats p fd) h2
      cases ht1 : tryBody codec jq wq dry fs1 p fd (lowerStr p.ext)
          (initStats p fd) with
      | ok out1 =>
        cases ht2 : tryBody codec jq wq dry fs2 p fd (lowerStr p.ext)
            (initStats p fd) with
        | ok out2 =>
          obtain ⟨s1, v1, f1⟩ := out1
          obtain ⟨s2, v2, f2⟩ := out2
          rw [ht1, ht2] at hpe
          simp only [projTry, Except.ok.injEq, Prod.mk.injEq] at hpe
          obtain ⟨hs, hv⟩ := hpe
          subst hs
          subst hv
          rfl
        | error er2 =>
          obtain ⟨e2, s2, v2, f2⟩ := er2
          obtain ⟨s1, v1, f1⟩ := out1
          rw [ht1, ht2] at hpe
          simp [projTry] at hpe
      | error er1 =>
        cases ht2 : tryBody codec jq wq dry fs2 p fd (lowerStr p.ext)
            (initStats p fd) with
        | ok out2 =>
          obtain ⟨e1, s1, v1, f1⟩ := er1
          obtain ⟨s2, v2, f2⟩ := out2
          rw [ht1, ht2] at hpe
          simp [projTry] at hpe
        | error er2 =>
          obtain ⟨e1, s1, v1, f1⟩ := er1
          obtain ⟨e2, s2, v2, f2⟩ := er2
          rw [ht1, ht2] at hpe
          simp only [projTry, Except.error.injEq, Prod.mk.injEq] at hpe
          obtain ⟨he, hs, hv⟩ := hpe
          subst he
          subst hs
          subst hv
          rfl

end Optimize

namespace Optimize

/-- Per-file result facts used for the batch invariants: the stats carry the
file's name; a skipped file reports zero savings and no error; a file that
errored before any successful save reports zero savings. -/
theorem optimizeImage_result_fields (codec : Codec) (jq wq : Nat) (dry : Bool)
    (fs : FS) (p : FPath) (r : OptResult)
    (hr : optimizeImage codec jq wq dry fs p = .ok r) :
    r.stats.file = p.name
  ∧ (r.stats.skipped = true →
       r.stats.new_size = r.stats.original_size ∧ r.stats.webp_size = 0 ∧
       r.stats.error = none)
  ∧ (r.stats.error ≠ none → r.saves = 0 →
       r.stats.new_size = r.stats.original_size ∧ r.stats.webp_size = 0) := by
  unfold optimizeImage at hr
  cases hf : FS.lookup fs p with
  | none => rw [hf] at hr; cases hr
  | some fd =>
    rw [hf] at hr
    dsimp only at hr
    by_cases hsk : fd.size < SKIP_IF_SMALLER_THAN
    · rw [if_pos hsk] at hr
      cases hr
      exact ⟨rfl, fun _ => ⟨rfl, rfl, rfl⟩, fun herr _ => absurd rfl herr⟩
    · rw [if_neg hsk] at hr
      cases htb : tryBody codec jq wq dry fs p fd (lowerStr p.ext)
          (initStats p fd) with
      | ok out =>
        obtain ⟨st, sv, fz⟩ := out
        rw [htb] at hr
        cases hr
        obtain ⟨h1, h2, h3, h4⟩ := tryBody_ok_fields htb
        refine ⟨by simpa [initStats] using h3, ?_, ?_⟩
        · intro hskip
          rw [hskip] at h2
          simp [initStats] at h2
        · intro herr _
          rw [h1] at herr
          simp [initStats] at herr
      | error er =>
        obtain ⟨e, st, sv, fz⟩ := er
        rw [htb] at hr
        cases hr
        obtain ⟨h1, h2, h3, h4, h5⟩ := tryBody_error_fields htb
        refine ⟨by simpa [initStats] using h2, ?_, ?_⟩
        · intro hskip
          have hx : st.skipped = true := hskip
          rw [h1] at hx
          simp [initStats] at hx
        · intro _ hsv
          obtain ⟨hst, -⟩ := h5 hsv
          subst hst
          exact ⟨rfl, rfl⟩

/-- A batch over existing files always completes, with one result per input
file, tagged with the file names in input order. -/
theorem runBatch_ok (codec : Codec) (jq wq : Nat) (dry : Bool)
    (files : List FPath) : ∀ (fs : FS),
    (∀ q ∈ files, FS.lookup fs q ≠ none) →
    ∃ b, runBatch codec jq wq dry files fs = .ok b ∧
      b.results.map Stats.file = files.map FPath.name := by
  induction files with
  | nil =>
    intro fs _
    exact ⟨_, rfl, rfl⟩
  | cons p rest ih =>
    intro fs hall
    obtain ⟨r, hr, junk, hjunk, hmem⟩ :=
      optimizeImage_ok codec jq wq dry fs p (hall p (List.mem_cons_self _ _))
    have hrest : ∀ x ∈ rest, FS.lookup r.fs x ≠ none := by
      intro x hx
      rw [hjunk]
      exact FS.lookup_append_ne_none _ _ _ (hall x (List.mem_cons_of_mem _ hx))
    obtain ⟨b2, hb2, hnames⟩ := ih r.fs hrest
    have hfile := (optimizeImage_result_fields codec jq wq dry fs p r hr).1
    refine ⟨{ results := r.stats :: b2.results,
              total_original := r.stats.original_size + b2.total_original,
              total_new := r.stats.new_size + b2.total_new,
              total_webp := r.stats.webp_size + b2.total_webp,
              fs := b2.fs }, ?_, ?_⟩
    · unfold runBatch
      rw [hr]
      dsimp only
      rw [hb2]
    · simp [hfile, hnames]

end Optimize

namespace Optimize

/-- Processing a batch whose earlier files all have a different stem from a
distinguished file `q` gives `q` exactly the stats that processing `q` alone
on the original filesystem would give, regardless of what the earlier files
did (in particular regardless of any of them failing). -/
theorem runBatch_mid (codec : Codec) (jq wq : Nat) (dry : Bool) (q : FPath)
    (l2 : List FPath) (fs0 : FS) :
    ∀ (l1 : List FPath) (junk : FS),
    (∀ en ∈ junk, (Prod.fst en).stem ≠ q.stem) →
    (∀ x ∈ l1 ++ q :: l2, FS.lookup fs0 x ≠ none) →
    (∀ x ∈ l1, x.stem ≠ q.stem) →
    ∃ b, runBatch codec jq wq dry (l1 ++ q :: l2) (junk ++ fs0) = .ok b
      ∧ b.results.map Stats.file = (l1 ++ q :: l2).map FPath.name
      ∧ ∃ r, optimizeImage codec jq wq dry fs0 q = .ok r
           ∧ b.results.get? l1.length = some r.stats := by
  intro l1
  induction l1 with
  | nil =>
    intro junk hjunkstem hall _
    have hkey : ∀ en ∈ junk, Prod.fst en ≠ q :=
      fun en hen hx => hjunkstem en hen (by rw [hx])
    have hkeyw : ∀ en ∈ junk, Prod.fst en ≠ webpPath q :=
      fun en hen hx => hjunkstem en hen (by rw [hx]; rfl)
    have hlq : FS.lookup (junk ++ fs0) q = FS.lookup fs0 q :=
      FS.lookup_append_of_ne _ _ _ hkey
    have hlw : FS.lookup (junk ++ fs0) (webpPath q) = FS.lookup fs0 (webpPath q) :=
      FS.lookup_append_of_ne _ _ _ hkeyw
    have hq0 : FS.lookup fs0 q ≠ none := hall q (by simp)
    obtain ⟨r0, hr0, junk0, hj0, hm0⟩ := optimizeImage_ok codec jq wq dry fs0 q hq0
    have hq1 : FS.lookup (junk ++ fs0) q ≠ none := by
      rw [hlq]
      exact hq0
    obtain ⟨r1, hr1, junk1, hj1, hm1⟩ :=
      optimizeImage_ok codec jq wq dry (junk ++ fs0) q hq1
    have hproj := optimizeImage_proj_eq codec jq wq dry (junk ++ fs0) fs0 q hlq
      (by rw [hlw])
    rw [hr0, hr1] at hproj
    simp only [projRes, Except.ok.injEq, Prod.mk.injEq] at hproj
    obtain ⟨hstats, hclosed, hsaves⟩ := hproj
    have hrest : ∀ x ∈ l2, FS.lookup r1.fs x ≠ none := by
      intro x hx
      rw [hj1]
      apply FS.lookup_append_ne_none
      apply FS.lookup_append_ne_none
      exact hall x (by simp [hx])
    obtain ⟨b2, hb2, hn2⟩ := runBatch_ok codec jq wq dry l2 r1.fs hrest
    have hfile := (optimizeImage_result_fields codec jq wq dry (junk ++ fs0) q r1 hr1).1
    refine ⟨{ results := r1.stats :: b2.results,
              total_original := r1.stats.original_size + b2.total_original,
              total_new := r1.stats.new_size + b2.total_new,
              total_webp := r1.stats.webp_size + b2.total_webp,
              fs := b2.fs }, ?_, ?_, r0, hr0, ?_⟩
    · show runBatch codec jq wq dry (q :: l2) (junk ++ fs0) = _
      unfold runBatch
      rw [hr1]
      dsimp only
      rw [hb2]
    · simp [hfile, hn2]
    · show some r1.stats = some r0.stats
      rw [hstats]
  | cons x l1' ih =>
    intro junk hjunkstem hall hstem
    have hx0 : FS.lookup fs0 x ≠ none := hall x (by simp)
    have hx1 : FS.lookup (junk ++ fs0) x ≠ none :=
      FS.lookup_append_ne_none _ _ _ hx0
    obtain ⟨rx, hrx, junkx, hjx, hmx⟩ :=
      optimizeImage_ok codec jq wq dry (junk ++ fs0) x hx1
    have hxq : x.stem ≠ q.stem := hstem x (by simp)
    have hnewjunk : ∀ en ∈ junkx ++ junk, (Prod.fst en).stem ≠ q.stem := by
      intro en hen
      rcases List.mem_append.1 hen with h | h
      · rcases hmx en h with hx | hx
        · rw [hx]
          exact hxq
        · rw [hx]
          exact hxq
      · exact hjunkstem en h
    have hall' : ∀ y ∈ l1' ++ q :: l2, FS.lookup fs0 y ≠ none :=
      fun y hy => hall y (by simp [hy])
    have hstem' : ∀ y ∈ l1', y.stem ≠ q.stem := fun y hy => hstem y (by simp [hy])
    obtain ⟨b2, hb2, hn2, r0, hr0, hget⟩ := ih (junkx ++ junk) hnewjunk hall' hstem'
    have hfs : rx.fs = (junkx ++ junk) ++ fs0 := by
      rw [hjx, List.append_assoc]
    have hfile := (optimizeImage_result_fields codec jq wq dry (junk ++ fs0) x rx hrx).1
    refine ⟨{ results := rx.stats :: b2.results,
              total_original := rx.stats.original_size + b2.total_original,
              total_new := rx.stats.new_size + b2.total_new,
              total_webp := rx.stats.webp_size + b2.total_webp,
              fs := b2.fs }, ?_, ?_, r0, hr0, ?_⟩
    · show runBatch codec jq wq dry (x :: (l1' ++ q :: l2)) (junk ++ fs0) = _
      unfold runBatch
      rw [hrx]
      dsimp only
      rw [hfs, hb2]
    · simp [hfile, hn2]
    · exact hget

end Optimize

/-- C7: on a batch of existing files, every exception raised inside a file's
try block is caught (the batch run returns a result, whatever the encoders
do), every file yields exactly one full result in input order, and a
distinguished file whose stem differs from all earlier files' stems gets
exactly the stats of processing it alone on the initial filesystem — so one
failing file neither aborts the batch nor changes the results of the other
files. -/
theorem optimizer_errors_isolated (codec : Optimize.Codec) (jq wq : Nat)
    (dry : Bool) (fs : Optimize.FS) (l1 l2 : List Optimize.FPath)
    (q : Optimize.FPath)
    (hall : ∀ x ∈ l1 ++ q :: l2, Optimize.FS.lookup fs x ≠ none)
    (hstem : ∀ x ∈ l1, x.stem ≠ q.stem) :
    ∃ b, Optimize.runBatch codec jq wq dry (l1 ++ q :: l2) fs = .ok b
      ∧ b.results.length = (l1 ++ q :: l2).length
      ∧ b.results.map Optimize.Stats.file = (l1 ++ q :: l2).map Optimize.FPath.name
      ∧ ∃ r, Optimize.optimizeImage codec jq wq dry fs q = .ok r
           ∧ b.results.get? l1.length = some r.stats := by
  obtain ⟨b, hb, hnames, r, hr, hget⟩ :=
    Optimize.runBatch_mid codec jq wq dry q l2 fs l1 [] (by simp) hall hstem
  refine ⟨b, hb, ?_, hnames, r, hr, hget⟩
  have hlen := congrArg List.length hnames
  simpa using hlen

/-- Witness for C7: a corrupt `b.jpg` fails with a caught error while the
following `a.jpg` still gets its full independent result. -/
theorem optimizer_errors_isolated_witness :
    ∃ b, Optimize.runBatch okCodec 82 80 false
        ([({ stem := "b", ext := ".jpg" } : Optimize.FPath)] ++
          ({ stem := "a", ext := ".jpg" } : Optimize.FPath) :: [])
        [({ stem := "b", ext := ".jpg" }, { size := 6000, image := none }),
         ({ stem := "a", ext := ".jpg" },
          { size := 6000, image := some { width := 100, height := 50, mode := "RGB" } })] =
        .ok b
      ∧ b.results.length =
          ([({ stem := "b", ext := ".jpg" } : Optimize.FPath)] ++
            ({ stem := "a", ext := ".jpg" } : Optimize.FPath) :: []).length
      ∧ b.results.map Optimize.Stats.file =
          ([({ stem := "b", ext := ".jpg" } : Optimize.FPath)] ++
            ({ stem := "a", ext := ".jpg" } : Optimize.FPath) :: []).map
            Optimize.FPath.name
      ∧ ∃ r, Optimize.optimizeImage okCodec 82 80 false
            [({ stem := "b", ext := ".jpg" }, { size := 6000, image := none }),
             ({ stem := "a", ext := ".jpg" },
              { size := 6000, image := some { width := 100, height := 50, mode := "RGB" } })]
            { stem := "a", ext := ".jpg" } = .ok r
          ∧ b.results.get? [({ stem := "b", ext := ".jpg" } : Optimize.FPath)].length =
              some r.stats :=
  optimizer_errors_isolated okCodec 82 80 false
    [({ stem := "b", ext := ".jpg" }, { size := 6000, image := none }),
     ({ stem := "a", ext := ".jpg" },
      { size := 6000, image := some { width := 100, height := 50, mode := "RGB" } })]
    [{ stem := "b", ext := ".jpg" }] [] { stem := "a", ext := ".jpg" }
    (by decide) (by decide)

namespace Optimize

/-- Batch invariants: results tagged with the input names in order, running
totals equal to the sums of the per-file fields, and skipped files reporting
zero savings. -/
theorem runBatch_props (codec : Codec) (jq wq : Nat) (dry : Bool)
    (files : List FPath) : ∀ (fs : FS) (b : BatchResult),
    runBatch codec jq wq dry files fs = .ok b →
    b.results.map Stats.file = files.map FPath.name
  ∧ b.total_original = (b.results.map Stats.original_size).sum
  ∧ b.total_new = (b.results.map Stats.new_size).sum
  ∧ b.total_webp = (b.results.map Stats.webp_size).sum
  ∧ (∀ s ∈ b.results, s.skipped = true →
       s.new_size = s.original_size ∧ s.webp_size = 0 ∧ s.error = none) := by
  induction files with
  | nil =>
    intro fs b hb
    cases hb
    simp
  | cons p rest ih =>
    intro fs b hb
    unfold runBatch at hb
    cases hopt : optimizeImage codec jq wq dry fs p with
    | error e =>
      rw [hopt] at hb
      cases hb
    | ok r =>
      rw [hopt] at hb
      dsimp only at hb
      cases hrun : runBatch codec jq wq dry rest r.fs with
      | error e =>
        rw [hrun] at hb
        cases hb
      | ok b2 =>
        rw [hrun] at hb
        dsimp only at hb
        cases hb
        obtain ⟨hn, ho, hnw, hwp, hsk⟩ := ih r.fs b2 hrun
        obtain ⟨hfile, hskip, herrsave⟩ :=
          optimizeImage_result_fields codec jq wq dry fs p r hopt
        refine ⟨by simp [hfile, hn], by simp [ho], by simp [hnw],
          by simp [hwp], ?_⟩
        intro s hs hskipped
        rcases List.mem_cons.1 hs with rfl | hs'
        · exact hskip hskipped
        · exact hsk s hs' hskipped

end Optimize

/-- C10: a batch run yields exactly one result per input file in input
order, the aggregate totals are the sums of the per-file fields, skipped
files contribute their original size to both the original and new totals
(zero savings) with a zero WebP contribution, and a file whose processing
errored before any completed save likewise reports its original size as its
new size and a zero WebP size. -/
theorem optimizer_totals (codec : Optimize.Codec) (jq wq : Nat) (dry : Bool)
    (files : List Optimize.FPath) (fs : Optimize.FS) (b : Optimize.BatchResult)
    (hb : Optimize.runBatch codec jq wq dry files fs = .ok b) :
    b.results.length = files.length
  ∧ b.results.map Optimize.Stats.file = files.map Optimize.FPath.name
  ∧ b.total_original = (b.results.map Optimize.Stats.original_size).sum
  ∧ b.total_new = (b.results.map Optimize.Stats.new_size).sum
  ∧ b.total_webp = (b.results.map Optimize.Stats.webp_size).sum
  ∧ (∀ s ∈ b.results, s.skipped = true →
       s.new_size = s.original_size ∧ s.webp_size = 0)
  ∧ (∀ fs' p' r', Optimize.optimizeImage codec jq wq dry fs' p' = .ok r' →
       r'.stats.error ≠ none → r'.saves = 0 →
       r'.stats.new_size = r'.stats.original_size ∧
       r'.stats.webp_size = 0) := by
  obtain ⟨hn, ho, hnw, hwp, hskipped⟩ :=
    Optimize.runBatch_props codec jq wq dry files fs b hb
  refine ⟨?_, hn, ho, hnw, hwp, ?_, ?_⟩
  · have hlen := congrArg List.length hn
    simpa using hlen
  · intro s hs h
    exact ⟨(hskipped s hs h).1, (hskipped s hs h).2.1⟩
  · intro fs' p' r' hr' herr hsv
    exact (Optimize.optimizeImage_result_fields codec jq wq dry fs' p' r' hr').2.2
      herr hsv

/-- Witness for C10: a two-file batch (one skipped, one fully optimized) has
its reported new total equal to the sum of the per-file new sizes. -/
theorem optimizer_totals_witness :
    ({ results := [{ file := "tiny.jpg", original_size := 100, new_size := 100,
                     webp_size := 0, skipped := true, error := none },
                   { file := "a.jpg", original_size := 6000, new_size := 600,
                     webp_size := 350, skipped := false, error := none }],
       total_original := 6100, total_new := 700, total_webp := 350,
       fs := [({ stem := "a", ext := ".webp" },
               { size := 350, image := some { width := 100, height := 50, mode := "RGB" } }),
              ({ stem := "a", ext := ".jpg" },
               { size := 600, image := some { width := 100, height := 50, mode := "RGB" } }),
              ({ stem := "tiny", ext := ".jpg" }, { size := 100, image := none }),
              ({ stem := "a", ext := ".jpg" },
               { size := 6000, image := some { width := 100, height := 50, mode := "RGB" } })]
     } : Optimize.BatchResult).total_new =
      (({ results := [{ file := "tiny.jpg", original_size := 100, new_size := 100,
                        webp_size := 0, skipped := true, error := none },
                      { file := "a.jpg", original_size := 6000, new_size := 600,
                        webp_size := 350, skipped := false, error := none }],
          total_original := 6100, total_new := 700, total_webp := 350,
          fs := [({ stem := "a", ext := ".webp" },
                  { size := 350, image := some { width := 100, height := 50, mode := "RGB" } }),
                 ({ stem := "a", ext := ".jpg" },
                  { size := 600, image := some { width := 100, height := 50, mode := "RGB" } }),
                 ({ stem := "tiny", ext := ".jpg" }, { size := 100, image := none }),
                 ({ stem := "a", ext := ".jpg" },
                  { size := 6000, image := some { width := 100, height := 50, mode := "RGB" } })]
        } : Optimize.BatchResult).results.map Optimize.Stats.new_size).sum :=
  (optimizer_totals okCodec 82 80 false
    [{ stem := "tiny", ext := ".jpg" }, { stem := "a", ext := ".jpg" }]
    [({ stem := "tiny", ext := ".jpg" }, { size := 100, image := none }),
     ({ stem := "a", ext := ".jpg" },
      { size := 6000, image := some { width := 100, height := 50, mode := "RGB" } })]
    _ rfl).2.2.2.1
